import Mathlib

/-!
Verification of the exchange-data-service core
(`src/exchange-data-service/main.py` and
`src/exchange-data-service/enhanced_ccxt_service.py`).

The Python service is shallowly embedded: prices, volumes and timestamps
are modelled as rationals, `None`-able fields as `Option`, a raised
exception in a fetch as `Except.error`, and the wall-clock instants
produced by `datetime.now()` are threaded as an explicit `now` parameter.
-/

/-- Canonical ticker record, mirroring the `TickerData` pydantic model
(`main.py` lines 112-124) and the `ETHTicker` dataclass
(`enhanced_ccxt_service.py` lines 89-102).  Optional fields default to
`none`, as the Python defaults are `None`. -/
structure TickerData where
  symbol : String
  exchange : String
  timestamp : ℚ
  last : ℚ
  bid : Option ℚ := none
  ask : Option ℚ := none
  high : Option ℚ := none
  low : Option ℚ := none
  volume : Option ℚ := none
  quote_volume : Option ℚ := none
  change : Option ℚ := none
  percentage : Option ℚ := none
  deriving Repr, DecidableEq

/-- Arbitrage record, mirroring `ArbitrageOpportunity` (`main.py` lines
144-154) and `ETHArbitrage` (`enhanced_ccxt_service.py` lines 104-115). -/
structure ArbitrageOpportunity where
  symbol : String
  buy_exchange : String
  sell_exchange : String
  buy_price : ℚ
  sell_price : ℚ
  spread : ℚ
  spread_percentage : ℚ
  volume : ℚ
  timestamp : ℚ
  estimated_profit : ℚ
  deriving Repr, DecidableEq

/-- Python `x or d` on a float-or-None `x`: `None` and `0.0` are falsy,
so both fall through to `d`. -/
def pyOr (o : Option ℚ) (d : ℚ) : ℚ :=
  match o with
  | none => d
  | some a => if a = 0 then d else a

/-- The buy-side key `lambda x: x.ask or x.last` (`main.py` line 384). -/
def askOrLast (t : TickerData) : ℚ := pyOr t.ask t.last

/-- The sell-side key `lambda x: x.bid or x.last` (`main.py` line 385). -/
def bidOrLast (t : TickerData) : ℚ := pyOr t.bid t.last

/-- Python `min(xs, key=f)`: first element attaining the minimal key
(a later element replaces the current best only on a strictly smaller
key). -/
def minByKey (key : TickerData → ℚ) : List TickerData → Option TickerData
  | [] => none
  | t :: ts => some (ts.foldl (fun best x => if key x < key best then x else best) t)

/-- Python `max(xs, key=f)`: first element attaining the maximal key. -/
def maxByKey (key : TickerData → ℚ) : List TickerData → Option TickerData
  | [] => none
  | t :: ts => some (ts.foldl (fun best x => if key best < key x then x else best) t)

/-- Insertion-ordered dict update: `d[k] = v` keeps the position of an
existing key and overwrites its value, otherwise appends. -/
def dictInsert (k : String) (v : TickerData) :
    List (String × TickerData) → List (String × TickerData)
  | [] => [(k, v)]
  | (k', v') :: rest =>
    if k' = k then (k', v) :: rest else (k', v') :: dictInsert k v rest

/-- The dict comprehension
`{t.symbol: t for t in tickers if t.symbol == symbol}`
(`main.py` line 378, `enhanced_ccxt_service.py` line 284), as a fold over
an insertion-ordered association list. -/
def groupBySymbol (symbol : String) (tickers : List TickerData) :
    List (String × TickerData) :=
  tickers.foldl
    (fun d t => if t.symbol = symbol then dictInsert t.symbol t d else d) []

/-- Lines 384-406 of `main.py` (identically lines 290-312 of
`enhanced_ccxt_service.py`): given the grouped tickers' values, pick the
best buy (minimal `ask or last`) and best sell (maximal `bid or last`)
and emit one opportunity when the venues differ and the percentage spread
clears `min_spread`. -/
def bestPairOpportunities (symbol : String) (min_spread : ℚ) (now : ℚ)
    (vals : List TickerData) : List ArbitrageOpportunity :=
  match minByKey askOrLast vals, maxByKey bidOrLast vals with
  | some best_buy, some best_sell =>
    if best_buy.exchange ≠ best_sell.exchange then
      let buy_price := pyOr best_buy.ask best_buy.last
      let sell_price := pyOr best_sell.bid best_sell.last
      let spread := sell_price - buy_price
      let spread_percentage := spread / buy_price * 100
      if min_spread ≤ spread_percentage then
        [{ symbol := symbol
           buy_exchange := best_buy.exchange
           sell_exchange := best_sell.exchange
           buy_price := buy_price
           sell_price := sell_price
           spread := spread
           spread_percentage := spread_percentage
           volume := min (pyOr best_buy.volume 0) (pyOr best_sell.volume 0)
           timestamp := now
           estimated_profit := spread * min (pyOr best_buy.volume 0) (pyOr best_sell.volume 0) }]
      else []
    else []
  | _, _ => []

/-- `detect_arbitrage_opportunities` (`main.py` lines 367-408) after the
awaited ticker collection has produced `tickers`: the two length guards,
the grouping by symbol, and the best-pair comparison over the grouped
values. -/
def detectArbitrageFromTickers (symbol : String) (min_spread : ℚ) (now : ℚ)
    (tickers : List TickerData) : List ArbitrageOpportunity :=
  if tickers.length < 2 then []
  else
    let symbol_tickers := groupBySymbol symbol tickers
    if symbol_tickers.length < 2 then []
    else bestPairOpportunities symbol min_spread now (symbol_tickers.map Prod.snd)

/-- Raw payload of `exchange.fetch_ticker(symbol)` as the ccxt dict used
by `collect_ticker_data` (`main.py` lines 245-259): key `'last'` is read
unconditionally, the others through `.get`, hence optional. -/
structure RawTicker where
  last : ℚ
  bid : Option ℚ := none
  ask : Option ℚ := none
  high : Option ℚ := none
  low : Option ℚ := none
  baseVolume : Option ℚ := none
  quoteVolume : Option ℚ := none
  change : Option ℚ := none
  percentage : Option ℚ := none
  deriving Repr, DecidableEq

/-- One initialized ccxt exchange as `collect_ticker_data` observes it:
its registry name, its loaded `markets` keys, the outcome of each
`fetch_ticker` call (`Except.error` models a raised exception), and the
duration each awaited fetch call takes (used for the sequential-timing
analysis of the collection loop). -/
structure Exchange where
  name : String
  markets : List String
  fetchTicker : String → Except String RawTicker
  fetchDelay : String → ℚ

/-- Construction of the `TickerData` record appended at `main.py` lines
247-260. -/
def mkTickerData (symbol : String) (exchangeName : String) (now : ℚ)
    (raw : RawTicker) : TickerData :=
  { symbol := symbol
    exchange := exchangeName
    timestamp := now
    last := raw.last
    bid := raw.bid
    ask := raw.ask
    high := raw.high
    low := raw.low
    volume := raw.baseVolume
    quote_volume := raw.quoteVolume
    change := raw.change
    percentage := raw.percentage }

/-- The inner `for symbol in symbols` loop of `collect_ticker_data`
(`main.py` lines 243-260) for one exchange.  The `try` wraps this whole
loop, so a raised fetch aborts the remaining symbols of this exchange;
tickers appended before the raise are kept because they were already
appended to the shared `ticker_data` list. -/
def collectSymbolsFrom (now : ℚ) (ex : Exchange) : List String → List TickerData
  | [] => []
  | s :: rest =>
    if s ∈ ex.markets then
      match ex.fetchTicker s with
      | Except.ok raw => mkTickerData s ex.name now raw :: collectSymbolsFrom now ex rest
      | Except.error _ => []
    else collectSymbolsFrom now ex rest

/-- `collect_ticker_data` (`main.py` lines 234-271): the outer loop over
`self.exchanges.items()`, each iteration under its own `try/except` that
logs and continues, appending into one result list. -/
def collect_ticker_data (now : ℚ) (exchanges : List Exchange)
    (symbols : List String) : List TickerData :=
  exchanges.foldl (fun acc ex => acc ++ collectSymbolsFrom now ex symbols) []

/-- Wall-clock duration of the inner per-symbol loop for one exchange:
each supported symbol's fetch is awaited in sequence, and a raising fetch
still takes its own duration before aborting the rest of this exchange's
symbols. -/
def collectSymbolsTime (ex : Exchange) : List String → ℚ
  | [] => 0
  | s :: rest =>
    if s ∈ ex.markets then
      match ex.fetchTicker s with
      | Except.ok _ => ex.fetchDelay s + collectSymbolsTime ex rest
      | Except.error _ => ex.fetchDelay s
    else collectSymbolsTime ex rest

/-- Wall-clock duration of `collect_ticker_data`: the outer loop awaits
each exchange's inner loop in turn, so the durations add up — no task is
dispatched before the previous call's result has been awaited. -/
def collectTickerElapsed (exchanges : List Exchange) (symbols : List String) : ℚ :=
  exchanges.foldl (fun acc ex => acc + collectSymbolsTime ex symbols) 0

/-- `detect_arbitrage_opportunities` (`main.py` lines 367-408) end to
end: it awaits `collect_ticker_data([symbol])` and runs the detector on
the collected tickers. -/
def detect_arbitrage_opportunities (now : ℚ) (exchanges : List Exchange)
    (symbol : String) (min_spread : ℚ) : List ArbitrageOpportunity :=
  detectArbitrageFromTickers symbol min_spread now
    (collect_ticker_data now exchanges [symbol])

/-- The last element of `tickers` whose `symbol` field equals `symbol`,
if any.  `groupBySymbol` is proved below to retain exactly this one
ticker: the dict comprehension keys every surviving ticker by the same
requested symbol, so each insertion overwrites the previous one. -/
def lastWithSymbol (symbol : String) : List TickerData → Option TickerData
  | [] => none
  | t :: ts =>
    match lastWithSymbol symbol ts with
    | some u => some u
    | none => if t.symbol = symbol then some t else none

/-- Observable events of one `_stream_exchange_websocket` supervisor
(`main.py` lines 426-466): a record published to the sink, the
`await asyncio.sleep(5)` back-off taken by the `except` handler, and the
loop exit taken when `self.running` is observed false. -/
inductive StreamEvent where
  | published (msg : String)
  | backoff (seconds : ℚ)
  | stopped
  deriving Repr, DecidableEq

/-- Trace of the supervisor loop `while self.running:` with body
`try: ...watch/publish... except: log; await asyncio.sleep(5)`.
`running i` is the value of the shared `self.running` flag read at the
loop test of iteration `i`; `outcome i` is what iteration `i`'s body did:
the messages it published before returning or raising, and whether it
raised.  `fuel` bounds how many iterations are unfolded (the loop itself
has no other exit). -/
def streamTrace (running : ℕ → Bool) (outcome : ℕ → List String × Bool) :
    ℕ → ℕ → List StreamEvent
  | 0, _ => []
  | fuel + 1, i =>
    if running i then
      ((outcome i).1.map StreamEvent.published)
        ++ (if (outcome i).2 then
              StreamEvent.backoff 5 :: streamTrace running outcome fuel (i + 1)
            else streamTrace running outcome fuel (i + 1))
    else [StreamEvent.stopped]

/-- Venue A of the spec's worked arbitrage example: it advertises the
requested symbol and returns a ticker with ask 100 and base volume 10. -/
def exA1 : Exchange :=
  { name := "A"
    markets := ["ETH/USDT"]
    fetchTicker := fun _ => Except.ok { last := 100, ask := some 100, baseVolume := some 10 }
    fetchDelay := fun _ => 1 }

/-- Venue B of the spec's worked arbitrage example: bid 105, volume 8. -/
def exB1 : Exchange :=
  { name := "B"
    markets := ["ETH/USDT"]
    fetchTicker := fun _ => Except.ok { last := 105, bid := some 105, baseVolume := some 8 }
    fetchDelay := fun _ => 1 }

/-- The ticker `collect_ticker_data` builds from venue A's payload. -/
def tickA1 : TickerData :=
  { symbol := "ETH/USDT", exchange := "A", timestamp := 1, last := 100,
    ask := some 100, volume := some 10 }

/-- The ticker `collect_ticker_data` builds from venue B's payload. -/
def tickB1 : TickerData :=
  { symbol := "ETH/USDT", exchange := "B", timestamp := 1, last := 105,
    bid := some 105, volume := some 8 }

/-- The opportunity the spec's example expects: buy on A at 100, sell on
B at 105, spread 5, spread percentage 5, volume 8, profit 40. -/
def oppAB : ArbitrageOpportunity :=
  { symbol := "ETH/USDT", buy_exchange := "A", sell_exchange := "B",
    buy_price := 100, sell_price := 105, spread := 5, spread_percentage := 5,
    volume := 8, timestamp := 1, estimated_profit := 40 }

/-- Two same-symbol tickers from distinct venues, for the grouping-collapse
witness. -/
def tickC2a : TickerData :=
  { symbol := "ETH/USDT", exchange := "binance", timestamp := 0, last := 100 }

/-- Second same-symbol ticker for the grouping-collapse witness. -/
def tickC2b : TickerData :=
  { symbol := "ETH/USDT", exchange := "kraken", timestamp := 0, last := 101 }

/-- A venue whose single supported fetch takes one time unit, for the
sequential-timing analysis. -/
def exD1 : Exchange :=
  { name := "D1"
    markets := ["ETH/USDT"]
    fetchTicker := fun _ => Except.ok { last := 100 }
    fetchDelay := fun _ => 1 }

/-- A second one-time-unit venue for the sequential-timing analysis. -/
def exD2 : Exchange :=
  { name := "D2"
    markets := ["ETH/USDT"]
    fetchTicker := fun _ => Except.ok { last := 101 }
    fetchDelay := fun _ => 1 }

/-- A venue whose fetch raises, for the error-reporting analysis. -/
def exFailA : Exchange :=
  { name := "A"
    markets := ["ETH/USDT"]
    fetchTicker := fun _ => Except.error "connection reset"
    fetchDelay := fun _ => 1 }

/-- A healthy venue next to the failing one. -/
def exOkB : Exchange :=
  { name := "B"
    markets := ["ETH/USDT"]
    fetchTicker := fun _ => Except.ok { last := 100 }
    fetchDelay := fun _ => 1 }

/-- The single ticker the healthy venue contributes. -/
def tickOkB : TickerData :=
  { symbol := "ETH/USDT", exchange := "B", timestamp := 0, last := 100 }

/-- A fresh ticker (collected at time 1000) from venue A. -/
def tickFresh : TickerData :=
  { symbol := "ETH/USDT", exchange := "A", timestamp := 1000, last := 100 }

/-- A long-stale ticker (timestamp 0) from venue B with the same symbol. -/
def tickStale : TickerData :=
  { symbol := "ETH/USDT", exchange := "B", timestamp := 0, last := 101 }

/-- Grouped-ticker input on which the comparison stage emits: cheap ask on
venue A. -/
def tickC6a : TickerData :=
  { symbol := "ETH/USDT", exchange := "A", timestamp := 0, last := 100,
    ask := some 100, volume := some 3 }

/-- Grouped-ticker input on which the comparison stage emits: high bid on
venue B. -/
def tickC6b : TickerData :=
  { symbol := "ETH/USDT", exchange := "B", timestamp := 0, last := 110,
    bid := some 110, volume := some 4 }

/-- Emission-stage input for the venue-distinctness witness. -/
def tickC7a : TickerData :=
  { symbol := "ETH/USDT", exchange := "X", timestamp := 0, last := 200,
    ask := some 200, volume := some 5 }

/-- Second emission-stage input for the venue-distinctness witness. -/
def tickC7b : TickerData :=
  { symbol := "ETH/USDT", exchange := "Y", timestamp := 0, last := 208,
    bid := some 208, volume := some 6 }

/-- Best-buy ticker with `volume = None`, for the missing-volume witness. -/
def tickC10a : TickerData :=
  { symbol := "ETH/USDT", exchange := "A", timestamp := 0, last := 100,
    ask := some 100, volume := none }

/-- Best-sell ticker with a present volume, for the missing-volume
witness. -/
def tickC10b : TickerData :=
  { symbol := "ETH/USDT", exchange := "B", timestamp := 0, last := 107,
    bid := some 107, volume := some 8 }

/-- The exchange preceding the raising one in the per-symbol-skip witness. -/
def exPre9 : Exchange :=
  { name := "P"
    markets := ["ETH/USDT", "ETH/BTC"]
    fetchTicker := fun _ => Except.ok { last := 50 }
    fetchDelay := fun _ => 1 }

/-- The exchange whose second symbol's fetch raises in the
per-symbol-skip witness. -/
def exMid9 : Exchange :=
  { name := "M"
    markets := ["ETH/USDT", "ETH/BTC", "ETH/USD"]
    fetchTicker := fun s => if s = "ETH/BTC" then Except.error "timeout" else Except.ok { last := 60 }
    fetchDelay := fun _ => 1 }

/-- The exchange following the raising one in the per-symbol-skip
witness. -/
def exPost9 : Exchange :=
  { name := "Q"
    markets := ["ETH/BTC", "ETH/USD"]
    fetchTicker := fun _ => Except.ok { last := 70 }
    fetchDelay := fun _ => 1 }

/-- Shared `running` flag for the supervisor-loop witness: cleared from
iteration 2 on. -/
def runFlag8 (n : ℕ) : Bool := decide (n < 2)

/-- Per-iteration body outcome for the supervisor-loop witness: one
message published, then the receive raises, every iteration. -/
def outcome8 (_ : ℕ) : List String × Bool := (["ticker-msg"], true)

lemma dictInsert_single (symbol : String) (t t0 : TickerData)
    (h : t.symbol = symbol) :
    dictInsert t.symbol t [(symbol, t0)] = [(symbol, t)] := by
  simp [dictInsert, h]

lemma groupBySymbol_foldl_aux (symbol : String) :
    ∀ (ts : List TickerData) (t0 : TickerData),
      ts.foldl
        (fun d t => if t.symbol = symbol then dictInsert t.symbol t d else d)
        [(symbol, t0)]
      = [(symbol, (lastWithSymbol symbol ts).getD t0)] := by
  intro ts
  induction ts with
  | nil => intro t0; simp [lastWithSymbol]
  | cons t ts ih =>
    intro t0
    by_cases h : t.symbol = symbol
    · rw [List.foldl_cons, if_pos h, dictInsert_single symbol t t0 h, ih t]
      rcases hlast : lastWithSymbol symbol ts with _ | u
      · simp [lastWithSymbol, hlast, h]
      · simp [lastWithSymbol, hlast]
    · rw [List.foldl_cons, if_neg h, ih t0]
      rcases hlast : lastWithSymbol symbol ts with _ | u
      · simp [lastWithSymbol, hlast, h]
      · simp [lastWithSymbol, hlast]

lemma groupBySymbol_eq_lastWithSymbol (symbol : String) (ts : List TickerData) :
    groupBySymbol symbol ts
      = match lastWithSymbol symbol ts with
        | some u => [(symbol, u)]
        | none => [] := by
  induction ts with
  | nil => simp [groupBySymbol, lastWithSymbol]
  | cons t ts ih =>
    by_cases h : t.symbol = symbol
    · have : dictInsert t.symbol t ([] : List (String × TickerData))
          = [(symbol, t)] := by simp [dictInsert, h]
      rw [groupBySymbol, List.foldl_cons, if_pos h, this,
        groupBySymbol_foldl_aux symbol ts t]
      rcases hlast : lastWithSymbol symbol ts with _ | u
      · simp [lastWithSymbol, hlast, h]
      · simp [lastWithSymbol, hlast]
    · rw [groupBySymbol, List.foldl_cons, if_neg h]
      rw [groupBySymbol] at ih
      rw [ih]
      rcases hlast : lastWithSymbol symbol ts with _ | u
      · simp [lastWithSymbol, hlast, h]
      · simp [lastWithSymbol, hlast]

lemma groupBySymbol_snd (symbol : String) (ts : List TickerData) :
    (groupBySymbol symbol ts).map Prod.snd
      = (lastWithSymbol symbol ts).toList := by
  rw [groupBySymbol_eq_lastWithSymbol]
  rcases lastWithSymbol symbol ts with _ | u <;> simp

lemma groupBySymbol_length_le_one (symbol : String) (ts : List TickerData) :
    (groupBySymbol symbol ts).length ≤ 1 := by
  rw [groupBySymbol_eq_lastWithSymbol]
  rcases lastWithSymbol symbol ts with _ | u <;> simp

lemma detectArbitrageFromTickers_eq_nil (symbol : String) (min_spread now : ℚ)
    (ts : List TickerData) :
    detectArbitrageFromTickers symbol min_spread now ts = [] := by
  rw [detectArbitrageFromTickers]
  by_cases h : ts.length < 2
  · simp [h]
  · have h2 : (groupBySymbol symbol ts).length < 2 :=
      lt_of_le_of_lt (groupBySymbol_length_le_one symbol ts) (by norm_num)
    simp [h, h2]

lemma foldl_append_acc (g : Exchange → List TickerData) :
    ∀ (exs : List Exchange) (acc : List TickerData),
      exs.foldl (fun a e => a ++ g e) acc
        = acc ++ exs.foldl (fun a e => a ++ g e) [] := by
  intro exs
  induction exs with
  | nil => intro acc; simp
  | cons e exs ih =>
    intro acc
    rw [List.foldl_cons, List.foldl_cons, ih (acc ++ g e), ih ([] ++ g e)]
    simp [List.append_assoc]

lemma collect_ticker_data_cons (now : ℚ) (ex : Exchange) (exs : List Exchange)
    (symbols : List String) :
    collect_ticker_data now (ex :: exs) symbols
      = collectSymbolsFrom now ex symbols ++ collect_ticker_data now exs symbols := by
  rw [collect_ticker_data, List.foldl_cons,
    foldl_append_acc (fun e => collectSymbolsFrom now e symbols), collect_ticker_data]
  simp

lemma collect_ticker_data_append (now : ℚ) (xs ys : List Exchange)
    (symbols : List String) :
    collect_ticker_data now (xs ++ ys) symbols
      = collect_ticker_data now xs symbols ++ collect_ticker_data now ys symbols := by
  induction xs with
  | nil => simp [collect_ticker_data]
  | cons e xs ih =>
    rw [List.cons_append, collect_ticker_data_cons, ih,
      collect_ticker_data_cons, List.append_assoc]

lemma collect_ticker_data_split (now : ℚ) (pre post : List Exchange) (e : Exchange)
    (symbols : List String) :
    collect_ticker_data now (pre ++ e :: post) symbols
      = collect_ticker_data now pre symbols
        ++ collectSymbolsFrom now e symbols
        ++ collect_ticker_data now post symbols := by
  rw [collect_ticker_data_append, collect_ticker_data_cons, List.append_assoc]

lemma collectSymbolsFrom_break (now : ℚ) (e : Exchange) (sf : String)
    (s2 : List String) (hmem : sf ∈ e.markets)
    (herr : ∃ msg, e.fetchTicker sf = Except.error msg) :
    ∀ s1 : List String,
      (∀ s ∈ s1, s ∈ e.markets → ∃ raw, e.fetchTicker s = Except.ok raw) →
      collectSymbolsFrom now e (s1 ++ sf :: s2) = collectSymbolsFrom now e s1 := by
  intro s1
  induction s1 with
  | nil =>
    intro _
    rcases herr with ⟨msg, hm⟩
    simp [collectSymbolsFrom, hmem, hm]
  | cons s s1 ih =>
    intro hok
    by_cases hs : s ∈ e.markets
    · rcases hok s (by simp) hs with ⟨raw, hraw⟩
      rw [List.cons_append, collectSymbolsFrom, if_pos hs, hraw,
        ih (fun x hx => hok x (by simp [hx])), collectSymbolsFrom, if_pos hs, hraw]
    · rw [List.cons_append, collectSymbolsFrom, if_neg hs,
        ih (fun x hx => hok x (by simp [hx])), collectSymbolsFrom, if_neg hs]

lemma foldl_add_acc (g : Exchange → ℚ) :
    ∀ (exs : List Exchange) (acc : ℚ),
      exs.foldl (fun a e => a + g e) acc
        = acc + exs.foldl (fun a e => a + g e) 0 := by
  intro exs
  induction exs with
  | nil => intro acc; simp
  | cons e exs ih =>
    intro acc
    rw [List.foldl_cons, List.foldl_cons, ih (acc + g e), ih (0 + g e)]
    ring

lemma collectTickerElapsed_cons (ex : Exchange) (exs : List Exchange)
    (symbols : List String) :
    collectTickerElapsed (ex :: exs) symbols
      = collectSymbolsTime ex symbols + collectTickerElapsed exs symbols := by
  rw [collectTickerElapsed, List.foldl_cons,
    foldl_add_acc (fun e => collectSymbolsTime e symbols), collectTickerElapsed]
  ring

/-- C2: in `detect_arbitrage_opportunities` the collected tickers are
regrouped into a dict keyed by ticker symbol, so whenever every collected
ticker carries the single requested symbol, at most one ticker survives
the grouping, the `len(symbol_tickers) < 2` guard fails, and the function
returns the empty list. -/
theorem detect_groups_by_symbol_returns_empty (symbol : String)
    (min_spread now : ℚ) (tickers : List TickerData)
    (_hsym : ∀ t ∈ tickers, t.symbol = symbol) :
    (groupBySymbol symbol tickers).length ≤ 1
    ∧ detectArbitrageFromTickers symbol min_spread now tickers = [] :=
  ⟨groupBySymbol_length_le_one symbol tickers,
   detectArbitrageFromTickers_eq_nil symbol min_spread now tickers⟩

/-- Witness for C2: two same-symbol tickers from distinct venues collapse
to a single grouped entry and the detector returns the empty list. -/
theorem detect_groups_by_symbol_returns_empty_witness :
    (∀ t ∈ [tickC2a, tickC2b], t.symbol = "ETH/USDT")
    ∧ ((groupBySymbol "ETH/USDT" [tickC2a, tickC2b]).length ≤ 1
       ∧ detectArbitrageFromTickers "ETH/USDT" (1/100) 0 [tickC2a, tickC2b] = []) :=
  ⟨by decide,
   detect_groups_by_symbol_returns_empty "ETH/USDT" (1/100) 0 [tickC2a, tickC2b]
     (by decide)⟩

/-- C5 (counterexample): no staleness window exists and selection is not
per-venue.  With collection at time 1000, venue B's ticker is 1000 time
units old — older than any window below that, e.g. 60 — yet it is the sole
ticker that participates in the comparison, while venue A's most recent,
fresh ticker is excluded by the symbol-keyed grouping. -/
theorem staleness_window_counterexample :
    (groupBySymbol "ETH/USDT" [tickFresh, tickStale]).map Prod.snd = [tickStale]
    ∧ tickFresh.timestamp = 1000
    ∧ tickStale.timestamp = 0
    ∧ tickFresh ∉ (groupBySymbol "ETH/USDT" [tickFresh, tickStale]).map Prod.snd := by
  refine ⟨?_, rfl, rfl, ?_⟩ <;>
    simp [groupBySymbol, dictInsert, tickFresh, tickStale, TickerData.mk.injEq]

/-- C5 (amended): the tickers participating in the comparison are exactly
the last collected ticker carrying the requested symbol (at most one),
independent of venue, of ticker age, and of any staleness window. -/
theorem comparison_input_is_last_symbol_match (symbol : String)
    (tickers : List TickerData) :
    (groupBySymbol symbol tickers).map Prod.snd
      = (lastWithSymbol symbol tickers).toList :=
  groupBySymbol_snd symbol tickers

/-- C4 (amended): a venue's failure never fails the whole collection or
suppresses another venue's success — the surrounding venues' tickers are
returned unchanged whatever `e` does — but the per-venue errors are only
logged, not part of the returned result. -/
theorem collect_failure_isolated_not_reported (now : ℚ)
    (pre post : List Exchange) (e : Exchange) (symbols : List String) :
    collect_ticker_data now (pre ++ e :: post) symbols
      = collect_ticker_data now pre symbols
        ++ collectSymbolsFrom now e symbols
        ++ collect_ticker_data now post symbols :=
  collect_ticker_data_split now pre post e symbols

/-- C4 (counterexample): the returned value of `collect_ticker_data` with
a failing venue A equals the returned value with venue A absent — the
result is a bare ticker list and enumerates no per-venue error cause. -/
theorem collect_no_error_list_counterexample :
    collect_ticker_data 0 [exFailA, exOkB] ["ETH/USDT"]
      = collect_ticker_data 0 [exOkB] ["ETH/USDT"]
    ∧ collect_ticker_data 0 [exFailA, exOkB] ["ETH/USDT"] = [tickOkB] := by
  constructor <;>
    simp [collect_ticker_data, collectSymbolsFrom, mkTickerData, exFailA, exOkB,
      tickOkB]

/-- C9: the `try` of `collect_ticker_data` wraps the whole per-symbol
loop of one exchange, so when the fetch for one symbol raises, that
exchange's remaining requested symbols are skipped, while the tickers it
already appended and every other exchange's tickers are still returned. -/
theorem collect_exception_skips_remaining_symbols (now : ℚ)
    (pre post : List Exchange) (e : Exchange) (s1 s2 : List String) (sf : String)
    (hok : ∀ s ∈ s1, s ∈ e.markets → ∃ raw, e.fetchTicker s = Except.ok raw)
    (hmem : sf ∈ e.markets)
    (herr : ∃ msg, e.fetchTicker sf = Except.error msg) :
    collect_ticker_data now (pre ++ e :: post) (s1 ++ sf :: s2)
      = collect_ticker_data now pre (s1 ++ sf :: s2)
        ++ collectSymbolsFrom now e s1
        ++ collect_ticker_data now post (s1 ++ sf :: s2) := by
  rw [collect_ticker_data_split,
    collectSymbolsFrom_break now e sf s2 hmem herr s1 hok]

/-- Witness for C9: exchange M's fetch raises on its second symbol, so M
contributes only its first symbol's ticker while exchanges P and Q are
untouched. -/
theorem collect_exception_skips_remaining_symbols_witness :
    (∀ s ∈ ["ETH/USDT"], s ∈ exMid9.markets →
      ∃ raw, exMid9.fetchTicker s = Except.ok raw)
    ∧ "ETH/BTC" ∈ exMid9.markets
    ∧ (∃ msg, exMid9.fetchTicker "ETH/BTC" = Except.error msg)
    ∧ collect_ticker_data 0 [exPre9, exMid9, exPost9]
        (["ETH/USDT"] ++ "ETH/BTC" :: ["ETH/USD"])
      = collect_ticker_data 0 [exPre9] (["ETH/USDT"] ++ "ETH/BTC" :: ["ETH/USD"])
        ++ collectSymbolsFrom 0 exMid9 ["ETH/USDT"]
        ++ collect_ticker_data 0 [exPost9] (["ETH/USDT"] ++ "ETH/BTC" :: ["ETH/USD"]) :=
  ⟨fun s hs _ => ⟨{ last := 60 }, by simp at hs; simp [hs, exMid9]⟩,
   by decide,
   ⟨"timeout", by simp [exMid9]⟩,
   collect_exception_skips_remaining_symbols 0 [exPre9] [exPost9] exMid9
     ["ETH/USDT"] ["ETH/USD"] "ETH/BTC"
     (fun s hs _ => ⟨{ last := 60 }, by simp at hs; simp [hs, exMid9]⟩)
     (by decide) ⟨"timeout", by simp [exMid9]⟩⟩

/-- C3 (counterexample): two venues whose single fetch each takes one
time unit make the collection loop take two time units — the total is not
bounded by the slowest individual call, because the loop awaits each
fetch before issuing the next. -/
theorem collect_elapsed_counterexample :
    collectTickerElapsed [exD1, exD2] ["ETH/USDT"] = 2
    ∧ exD1.fetchDelay "ETH/USDT" = 1
    ∧ exD2.fetchDelay "ETH/USDT" = 1
    ∧ ¬ collectTickerElapsed [exD1, exD2] ["ETH/USDT"] ≤ 1 := by
  have h : collectTickerElapsed [exD1, exD2] ["ETH/USDT"] = 2 := by
    simp [collectTickerElapsed, collectSymbolsTime, exD1, exD2]
    norm_num
  refine ⟨h, rfl, rfl, ?_⟩
  rw [h]; norm_num

/-- C3 (amended): the collection loop is sequential — its wall-clock time
is the sum of the individual venue call durations, so with every venue
taking `D` it is `N × D`, not `≈ D`. -/
theorem collect_elapsed_is_sum_of_calls (symbols : List String) (D : ℚ) :
    ∀ exs : List Exchange,
      (∀ e ∈ exs, collectSymbolsTime e symbols = D) →
      collectTickerElapsed exs symbols = (exs.length : ℚ) * D := by
  intro exs
  induction exs with
  | nil => intro _; simp [collectTickerElapsed]
  | cons e exs ih =>
    intro h
    rw [collectTickerElapsed_cons, h e (by simp),
      ih (fun x hx => h x (by simp [hx])), List.length_cons]
    push_cast
    ring

/-- Witness for C3 (amended): two one-time-unit venues take two time
units in total. -/
theorem collect_elapsed_is_sum_of_calls_witness :
    (∀ e ∈ [exD1, exD2], collectSymbolsTime e ["ETH/USDT"] = 1)
    ∧ collectTickerElapsed [exD1, exD2] ["ETH/USDT"] = (([exD1, exD2].length : ℕ) : ℚ) * 1 :=
  ⟨by intro e he; rcases List.mem_pair.mp he with h | h <;>
      simp [h, collectSymbolsTime, exD1, exD2],
   collect_elapsed_is_sum_of_calls ["ETH/USDT"] 1 [exD1, exD2]
     (by intro e he; rcases List.mem_pair.mp he with h | h <;>
        simp [h, collectSymbolsTime, exD1, exD2])⟩

/-- C8: on an error during receive the supervisor publishes nothing
further in that iteration, takes the five-second back-off, and resumes
with the next receive attempt of the same loop; the loop exits only when
the shared `running` flag is observed false. -/
theorem stream_error_backoff_resume (running : ℕ → Bool)
    (outcome : ℕ → List String × Bool) (fuel i : ℕ)
    (hrun : running i = true) (herr : (outcome i).2 = true) :
    streamTrace running outcome (fuel + 1) i
      = ((outcome i).1.map StreamEvent.published)
        ++ StreamEvent.backoff 5 :: streamTrace running outcome fuel (i + 1)
    ∧ ∀ f j, StreamEvent.stopped ∈ streamTrace running outcome f j →
        ∃ k, running k = false := by
  constructor
  · rw [streamTrace, if_pos hrun, herr]
    simp
  · intro f
    induction f with
    | zero => intro j hj; simp [streamTrace] at hj
    | succ f ih =>
      intro j hj
      by_cases h : running j = true
      · rw [streamTrace, if_pos h] at hj
        rcases List.mem_append.mp hj with hj1 | hj2
        · rcases List.mem_map.mp hj1 with ⟨m, _, hm⟩
          exact absurd hm (by simp)
        · by_cases he : (outcome j).2 = true
          · rw [he, if_pos rfl] at hj2
            rcases List.mem_cons.mp hj2 with h1 | h2
            · exact absurd h1 (by simp)
            · exact ih (j + 1) h2
          · rw [if_neg he] at hj2
            exact ih (j + 1) hj2
      · exact ⟨j, by simpa using h⟩

/-- Witness for C8: with the flag cleared from iteration 2 on and every
body raising after one publish, iteration 0 publishes, backs off, and
resumes. -/
theorem stream_error_backoff_resume_witness :
    runFlag8 0 = true ∧ (outcome8 0).2 = true
    ∧ (streamTrace runFlag8 outcome8 (1 + 1) 0
        = ((outcome8 0).1.map StreamEvent.published)
          ++ StreamEvent.backoff 5 :: streamTrace runFlag8 outcome8 1 (0 + 1)
       ∧ ∀ f j, StreamEvent.stopped ∈ streamTrace runFlag8 outcome8 f j →
          ∃ k, runFlag8 k = false) :=
  ⟨rfl, rfl, stream_error_backoff_resume runFlag8 outcome8 1 0 rfl rfl⟩

lemma pyOr_zero_nonneg (o : Option ℚ) (h : ∀ v, o = some v → 0 ≤ v) :
    0 ≤ pyOr o 0 := by
  rcases o with _ | v
  · simp [pyOr]
  · rw [pyOr]
    split
    · exact le_refl 0
    · exact h v rfl

lemma bestPair_mem_eq (symbol : String) (min_spread now : ℚ)
    (vals : List TickerData) (opp : ArbitrageOpportunity) (bb bs : TickerData)
    (hbb : minByKey askOrLast vals = some bb)
    (hbs : maxByKey bidOrLast vals = some bs)
    (hmem : opp ∈ bestPairOpportunities symbol min_spread now vals) :
    bb.exchange ≠ bs.exchange
    ∧ min_spread ≤ (pyOr bs.bid bs.last - pyOr bb.ask bb.last) / pyOr bb.ask bb.last * 100
    ∧ opp =
      { symbol := symbol
        buy_exchange := bb.exchange
        sell_exchange := bs.exchange
        buy_price := pyOr bb.ask bb.last
        sell_price := pyOr bs.bid bs.last
        spread := pyOr bs.bid bs.last - pyOr bb.ask bb.last
        spread_percentage :=
          (pyOr bs.bid bs.last - pyOr bb.ask bb.last) / pyOr bb.ask bb.last * 100
        volume := min (pyOr bb.volume 0) (pyOr bs.volume 0)
        timestamp := now
        estimated_profit :=
          (pyOr bs.bid bs.last - pyOr bb.ask bb.last)
            * min (pyOr bb.volume 0) (pyOr bs.volume 0) } := by
  rw [bestPairOpportunities, hbb, hbs] at hmem
  dsimp only at hmem
  by_cases hex : bb.exchange ≠ bs.exchange
  · rw [if_pos hex] at hmem
    by_cases hsp : min_spread
        ≤ (pyOr bs.bid bs.last - pyOr bb.ask bb.last) / pyOr bb.ask bb.last * 100
    · rw [if_pos hsp] at hmem
      exact ⟨hex, hsp, List.mem_singleton.mp hmem⟩
    · rw [if_neg hsp] at hmem
      simp at hmem
  · rw [if_neg hex] at hmem
    simp at hmem

lemma bestPair_length_le_one (symbol : String) (min_spread now : ℚ)
    (vals : List TickerData) :
    (bestPairOpportunities symbol min_spread now vals).length ≤ 1 := by
  rw [bestPairOpportunities]
  rcases minByKey askOrLast vals with _ | bb
  · simp
  · rcases maxByKey bidOrLast vals with _ | bs
    · simp
    · simp only []
      split
      · split <;> simp
      · simp

/-- C6: every opportunity the emission stage produces has
`spread_percentage = (sell_price − buy_price) / buy_price × 100`, and it
is produced only when that percentage is at least the caller-supplied
minimum. -/
theorem emitted_spread_percentage_formula (symbol : String)
    (min_spread now : ℚ) (vals : List TickerData) (opp : ArbitrageOpportunity)
    (hmem : opp ∈ bestPairOpportunities symbol min_spread now vals) :
    opp.spread_percentage
      = (opp.sell_price - opp.buy_price) / opp.buy_price * 100
    ∧ min_spread ≤ opp.spread_percentage := by
  rcases hbb : minByKey askOrLast vals with _ | bb
  · rw [bestPairOpportunities, hbb] at hmem; simp at hmem
  · rcases hbs : maxByKey bidOrLast vals with _ | bs
    · rw [bestPairOpportunities, hbb, hbs] at hmem; simp at hmem
    · obtain ⟨-, hsp, heq⟩ :=
        bestPair_mem_eq symbol min_spread now vals opp bb bs hbb hbs hmem
      subst heq
      exact ⟨rfl, hsp⟩

/-- Witness for C6: on a concrete two-venue grouped input the emitted
opportunity satisfies the formula and clears the minimum. -/
theorem emitted_spread_percentage_formula_witness :
    ∃ opp, opp ∈ bestPairOpportunities "ETH/USDT" 1 0 [tickC6a, tickC6b]
    ∧ opp.spread_percentage
        = (opp.sell_price - opp.buy_price) / opp.buy_price * 100
    ∧ 1 ≤ opp.spread_percentage := by
  have hmem :
      ({ symbol := "ETH/USDT", buy_exchange := "A", sell_exchange := "B",
         buy_price := 100, sell_price := 110, spread := 10,
         spread_percentage := 10, volume := 3, timestamp := 0,
         estimated_profit := 30 } : ArbitrageOpportunity)
        ∈ bestPairOpportunities "ETH/USDT" 1 0 [tickC6a, tickC6b] := by
    norm_num [bestPairOpportunities, minByKey, maxByKey, askOrLast, bidOrLast,
      pyOr, tickC6a, tickC6b]
    decide
  exact ⟨_, hmem,
    emitted_spread_percentage_formula "ETH/USDT" 1 0 [tickC6a, tickC6b] _ hmem⟩

/-- C7: every opportunity the emission stage produces has a buy venue
different from its sell venue, and at most one opportunity is produced
per call. -/
theorem emitted_opportunity_venues_distinct (symbol : String)
    (min_spread now : ℚ) (vals : List TickerData) (opp : ArbitrageOpportunity)
    (hmem : opp ∈ bestPairOpportunities symbol min_spread now vals) :
    opp.buy_exchange ≠ opp.sell_exchange
    ∧ (bestPairOpportunities symbol min_spread now vals).length ≤ 1 := by
  rcases hbb : minByKey askOrLast vals with _ | bb
  · rw [bestPairOpportunities, hbb] at hmem; simp at hmem
  · rcases hbs : maxByKey bidOrLast vals with _ | bs
    · rw [bestPairOpportunities, hbb, hbs] at hmem; simp at hmem
    · obtain ⟨hex, -, heq⟩ :=
        bestPair_mem_eq symbol min_spread now vals opp bb bs hbb hbs hmem
      subst heq
      exact ⟨hex, bestPair_length_le_one symbol min_spread now vals⟩

/-- Witness for C7: a concrete emitted opportunity has distinct venues
and the result is a singleton. -/
theorem emitted_opportunity_venues_distinct_witness :
    ∃ opp, opp ∈ bestPairOpportunities "ETH/USDT" 1 0 [tickC7a, tickC7b]
    ∧ opp.buy_exchange ≠ opp.sell_exchange
    ∧ (bestPairOpportunities "ETH/USDT" 1 0 [tickC7a, tickC7b]).length ≤ 1 := by
  have hmem :
      ({ symbol := "ETH/USDT", buy_exchange := "X", sell_exchange := "Y",
         buy_price := 200, sell_price := 208, spread := 8,
         spread_percentage := 4, volume := 5, timestamp := 0,
         estimated_profit := 40 } : ArbitrageOpportunity)
        ∈ bestPairOpportunities "ETH/USDT" 1 0 [tickC7a, tickC7b] := by
    norm_num [bestPairOpportunities, minByKey, maxByKey, askOrLast, bidOrLast,
      pyOr, tickC7a, tickC7b]
    decide
  exact ⟨_, hmem,
    emitted_opportunity_venues_distinct "ETH/USDT" 1 0 [tickC7a, tickC7b] _ hmem⟩

/-- C10: when the best-buy or the best-sell ticker has no volume and the
present volumes are nonnegative, the emitted opportunity's volume and
estimated profit are both zero, because both come from
`min(buy_volume or 0, sell_volume or 0)`. -/
theorem emitted_volume_zero_when_volume_missing (symbol : String)
    (min_spread now : ℚ) (vals : List TickerData) (opp : ArbitrageOpportunity)
    (bb bs : TickerData)
    (hbb : minByKey askOrLast vals = some bb)
    (hbs : maxByKey bidOrLast vals = some bs)
    (hbbv : ∀ v, bb.volume = some v → 0 ≤ v)
    (hbsv : ∀ v, bs.volume = some v → 0 ≤ v)
    (hnone : bb.volume = none ∨ bs.volume = none)
    (hmem : opp ∈ bestPairOpportunities symbol min_spread now vals) :
    opp.volume = 0 ∧ opp.estimated_profit = 0 := by
  obtain ⟨-, -, heq⟩ :=
    bestPair_mem_eq symbol min_spread now vals opp bb bs hbb hbs hmem
  subst heq
  have hv : min (pyOr bb.volume 0) (pyOr bs.volume 0) = 0 := by
    rcases hnone with hn | hn
    · rw [hn]
      exact min_eq_left (pyOr_zero_nonneg bs.volume hbsv)
    · rw [hn]
      exact min_eq_right (pyOr_zero_nonneg bb.volume hbbv)
  constructor
  · exact hv
  · show (pyOr bs.bid bs.last - pyOr bb.ask bb.last)
      * min (pyOr bb.volume 0) (pyOr bs.volume 0) = 0
    rw [hv, mul_zero]

/-- Witness for C10: the best-buy ticker's volume is `None`, so the
emitted opportunity carries volume 0 and estimated profit 0. -/
theorem emitted_volume_zero_when_volume_missing_witness :
    ∃ opp, opp ∈ bestPairOpportunities "ETH/USDT" 1 0 [tickC10a, tickC10b]
    ∧ opp.volume = 0 ∧ opp.estimated_profit = 0 := by
  have hbb : minByKey askOrLast [tickC10a, tickC10b] = some tickC10a := by
    norm_num [minByKey, askOrLast, pyOr, tickC10a, tickC10b]
  have hbs : maxByKey bidOrLast [tickC10a, tickC10b] = some tickC10b := by
    norm_num [maxByKey, bidOrLast, pyOr, tickC10a, tickC10b]
  have hmem :
      ({ symbol := "ETH/USDT", buy_exchange := "A", sell_exchange := "B",
         buy_price := 100, sell_price := 107, spread := 7,
         spread_percentage := 7, volume := 0, timestamp := 0,
         estimated_profit := 0 } : ArbitrageOpportunity)
        ∈ bestPairOpportunities "ETH/USDT" 1 0 [tickC10a, tickC10b] := by
    norm_num [bestPairOpportunities, minByKey, maxByKey, askOrLast, bidOrLast,
      pyOr, tickC10a, tickC10b]
    decide
  exact ⟨_, hmem,
    emitted_volume_zero_when_volume_missing "ETH/USDT" 1 0 [tickC10a, tickC10b]
      _ tickC10a tickC10b hbb hbs
      (by intro v hv; simp [tickC10a] at hv)
      (by intro v hv; simp [tickC10b] at hv; rw [← hv]; norm_num)
      (Or.inl (by simp [tickC10a])) hmem⟩

/-- C1 (code evaluated at the failing input): with venue A advertising
ask 100 / volume 10 and venue B bid 105 / volume 8 for the requested
symbol, `collect_ticker_data` yields exactly the two expected tickers and
the comparison stage on those two tickers would yield exactly the
opportunity the spec's example demands — yet the full
`detect_arbitrage_opportunities` returns the empty list, because the
symbol-keyed grouping collapses both tickers into one entry. -/
theorem detect_arbitrage_example_returns_empty :
    collect_ticker_data 1 [exA1, exB1] ["ETH/USDT"] = [tickA1, tickB1]
    ∧ bestPairOpportunities "ETH/USDT" (1/2) 1 [tickA1, tickB1] = [oppAB]
    ∧ detect_arbitrage_opportunities 1 [exA1, exB1] "ETH/USDT" (1/2) = [] := by
  have hcoll : collect_ticker_data 1 [exA1, exB1] ["ETH/USDT"] = [tickA1, tickB1] := by
    simp [collect_ticker_data, collectSymbolsFrom, mkTickerData, exA1, exB1,
      tickA1, tickB1]
  refine ⟨hcoll, ?_, ?_⟩
  · norm_num [bestPairOpportunities, minByKey, maxByKey, askOrLast, bidOrLast,
      pyOr, tickA1, tickB1, oppAB]
    decide
  · rw [detect_arbitrage_opportunities, hcoll,
      detectArbitrageFromTickers_eq_nil]
